import Mathlib

/-!
Formal model of the decision core of the Ultimate Hybrid trading strategy
(`src/ultimate_hybrid_strategy.py`).  The grid planner, indicator engine,
market-profile builder, launch-session state machine and risk gate are
translated into executable Lean definitions and their stated properties are
proved or refuted.  Prices, volumes, percentages and times are modelled as
rationals; the source's `Decimal` / `float` arithmetic is modelled as exact
arithmetic on `ℚ`, and timestamps are minutes on a rational time line.
-/

namespace UltimateHybrid

/-! ### Configuration constants (class attributes of `UltimateHybridStrategy`) -/

/-- Configuration constant `base_grid_count = 8` -/
def baseGridCount : ℕ := 8

/-- Configuration constant `base_spacing_pct = 1.2` (used as `base_spacing_pct / 100` in pct mode) -/
def baseSpacingPct : ℚ := 6/5

/-- Configuration constant `atr_period = 14` -/
def atrPeriod : ℕ := 14

/-- Configuration constant `atr_multiplier = 1.5` -/
def atrMultiplier : ℚ := 3/2

/-- Configuration constant `grid_rebalance_threshold = 0.05` -/
def gridRebalanceThreshold : ℚ := 1/20

/-- Configuration constant `grid_max_spread = 0.15` -/
def gridMaxSpread : ℚ := 3/20

/-- Configuration constant `grid_min_spread = 0.005` -/
def gridMinSpread : ℚ := 1/200

/-- Configuration `grid_mode = "ATR Based"`: the ATR branch of the spacing computation is
the one selected by the configuration. -/
def gridModeAtrBased : Bool := true

/-- Configuration constant `launch_time_start = time(1, 0)`, as minutes of the day. -/
def launchTimeStartMin : ℚ := 60

/-- Configuration constant `launch_time_end = time(8, 0)`, as minutes of the day. -/
def launchTimeEndMin : ℚ := 480

/-- Configuration constant `needle_body_ratio = 2.0` -/
def needleBodyMin : ℚ := 2

/-- Configuration constant `launch_cooldown_minutes = 30` -/
def launchCooldownMinutes : ℚ := 30

/-- Configuration constant `launch_min_range_pct = 0.005` -/
def launchMinRangePct : ℚ := 1/200

/-- Configuration constant `launch_max_range_pct = 0.050` -/
def launchMaxRangePct : ℚ := 1/20

/-- Configuration constant `mp_tpo_percent = 70.0` -/
def mpTpoPercent : ℚ := 70

/-- Configuration constant `mp_poc_weight = 0.4` -/
def mpPocWeight : ℚ := 2/5

/-- Configuration constant `max_portfolio_risk = 12.0` -/
def maxPortfolioRisk : ℚ := 12

/-- Configuration constant `max_single_position = 4.0` -/
def maxSinglePosition : ℚ := 4

/-- Configuration constant `max_concurrent_trades = 10` -/
def maxConcurrentTrades : ℕ := 10

/-- Configuration constant `min_balance_threshold = 50` -/
def minBalanceThreshold : ℚ := 50

/-- Configuration constant `emergency_stop_drawdown = 20.0` -/
def emergencyStopDrawdown : ℚ := 20

/-- Configuration constant `daily_loss_limit = 5.0` -/
def dailyLossLimit : ℚ := 5

/-- Configuration constant `max_consecutive_losses = 5` -/
def maxConsecutiveLosses : ℕ := 5

/-- Configuration constant `volatility_threshold = 1.5` -/
def volatilityThreshold : ℚ := 3/2

/-- Configuration constant `trend_period = 50` -/
def trendPeriod : ℕ := 50

/-- Configuration constant `trend_strength_threshold = 0.015` -/
def trendStrengthThreshold : ℚ := 3/200

/-! ### Grid planner (`initialize_grid`, `manage_grid_orders`) -/

/-- The grid plan assembled by `initialize_grid`: base price, spacing, and the
ladders of buy and sell levels (`grid_base_price`, `grid_spacing`,
`grid_buy_levels`, `grid_sell_levels`). -/
structure GridPlan where
  basePrice : ℚ
  spacing : ℚ
  buyLevels : List ℚ
  sellLevels : List ℚ
deriving Repr, DecidableEq

/-- The spacing clamp of `initialize_grid` (source lines 370-374):
`max(min_spacing, min(spacing, max_spacing))` with
`min_spacing = base * grid_min_spread` and
`max_spacing = base * (grid_max_spread / level_count)`.  The level count is a
parameter so the clamp can be examined for level counts other than the
configured `base_grid_count`. -/
def gridSpacing (basePrice rawSpacing : ℚ) (levelCount : ℕ) : ℚ :=
  let minSpacing := basePrice * gridMinSpread
  let maxSpacing := basePrice * (gridMaxSpread / levelCount)
  max minSpacing (min rawSpacing maxSpacing)

/-- Model of `initialize_grid` (source lines 349-388).  Returns `none` when the guard
`current_price <= 0 or atr_value <= 0` fires and the grid is not built.
`enable_market_profile` is `True` in the configuration, so the base price
blends the POC whenever the profile is valid and its POC is positive.
Buy levels are kept only when positive (`if buy_price > 0`); sell levels are
always appended. -/
def initializeGrid (currentPrice atrValue : ℚ) (mpIsValid : Bool)
    (mpPocPrice : ℚ) : Option GridPlan :=
  if currentPrice ≤ 0 ∨ atrValue ≤ 0 then none
  else
    let basePrice :=
      if mpIsValid = true ∧ 0 < mpPocPrice then
        currentPrice * (1 - mpPocWeight) + mpPocPrice * mpPocWeight
      else currentPrice
    let rawSpacing :=
      if gridModeAtrBased then atrValue * atrMultiplier
      else basePrice * (baseSpacingPct / 100)
    let spacing := gridSpacing basePrice rawSpacing baseGridCount
    let buyLevels :=
      ((List.range baseGridCount).map
        (fun i : ℕ => basePrice - spacing * ((i : ℚ) + 1))).filter (fun p => 0 < p)
    let sellLevels :=
      (List.range baseGridCount).map
        (fun i : ℕ => basePrice + spacing * ((i : ℚ) + 1))
    some ⟨basePrice, spacing, buyLevels, sellLevels⟩

/-- The rebalance trigger of `manage_grid_orders` (source line 443):
`abs(price - base) / base > grid_rebalance_threshold`; when true the plan is
discarded (all grid orders cancelled and `grid_initialized` cleared). -/
def gridNeedsRebalance (currentPrice gridBasePrice : ℚ) : Bool :=
  decide (|currentPrice - gridBasePrice| / gridBasePrice > gridRebalanceThreshold)

lemma gridSpacing_pos (basePrice rawSpacing : ℚ) (levelCount : ℕ)
    (hb : 0 < basePrice) : 0 < gridSpacing basePrice rawSpacing levelCount := by
  have h1 : 0 < basePrice * gridMinSpread := by
    have : (0:ℚ) < gridMinSpread := by norm_num [gridMinSpread]
    positivity
  exact lt_of_lt_of_le h1 (le_max_left _ _)

lemma gridSpacing_le (basePrice rawSpacing : ℚ) (levelCount : ℕ)
    (hb : 0 < basePrice) (h0 : 0 < levelCount)
    (hn : (levelCount : ℚ) * gridMinSpread ≤ gridMaxSpread) :
    gridSpacing basePrice rawSpacing levelCount
      ≤ basePrice * (gridMaxSpread / levelCount) := by
  have hc : (0:ℚ) < (levelCount : ℚ) := by exact_mod_cast h0
  apply max_le
  · apply mul_le_mul_of_nonneg_left _ (le_of_lt hb)
    rw [le_div_iff₀ hc]
    linarith [hn]
  · exact min_le_right _ _

/-- C1: a grid plan produced by `initialize_grid` always carries exactly
`base_grid_count` buy levels and `base_grid_count` sell levels, every buy
level strictly below the base price and every sell level strictly above it. -/
theorem grid_levels_count_and_sides (currentPrice atrValue : ℚ)
    (mpIsValid : Bool) (mpPocPrice : ℚ) (plan : GridPlan)
    (h : initializeGrid currentPrice atrValue mpIsValid mpPocPrice = some plan) :
    plan.buyLevels.length = baseGridCount ∧
    plan.sellLevels.length = baseGridCount ∧
    (∀ b ∈ plan.buyLevels, b < plan.basePrice) ∧
    (∀ q ∈ plan.sellLevels, plan.basePrice < q) := by
  unfold initializeGrid at h
  split at h
  · exact absurd h (by simp)
  · rename_i hguard
    push_neg at hguard
    obtain ⟨hcp, _⟩ := hguard
    rw [Option.some.injEq] at h
    subst h
    simp only
    set basePrice :=
      (if mpIsValid = true ∧ 0 < mpPocPrice then
        currentPrice * (1 - mpPocWeight) + mpPocPrice * mpPocWeight
      else currentPrice) with hbase
    have hb : 0 < basePrice := by
      rw [hbase]
      split
      · rename_i hc
        have : (0:ℚ) < mpPocWeight := by norm_num [mpPocWeight]
        have : mpPocWeight < 1 := by norm_num [mpPocWeight]
        nlinarith [hc.2]
      · exact hcp
    set rawSpacing :=
      (if gridModeAtrBased then atrValue * atrMultiplier
       else basePrice * (baseSpacingPct / 100)) with hraw
    set spacing := gridSpacing basePrice rawSpacing baseGridCount with hsp
    have hspos : 0 < spacing := gridSpacing_pos _ _ _ hb
    have hsple : spacing ≤ basePrice * (gridMaxSpread / baseGridCount) :=
      gridSpacing_le _ _ _ hb (by norm_num [baseGridCount])
        (by norm_num [baseGridCount, gridMinSpread, gridMaxSpread])
    -- every candidate buy level is positive, so the filter keeps all of them
    have hpos : ∀ p ∈ (List.range baseGridCount).map
        (fun i : ℕ => basePrice - spacing * ((i : ℚ) + 1)), 0 < p := by
      intro p hp
      rw [List.mem_map] at hp
      obtain ⟨i, hi, rfl⟩ := hp
      rw [List.mem_range] at hi
      have hi8 : ((i : ℚ) + 1) ≤ (baseGridCount : ℚ) := by
        have : (i : ℚ) ≤ (baseGridCount : ℚ) - 1 := by
          have : i ≤ baseGridCount - 1 := Nat.le_pred_of_lt hi
          calc (i : ℚ) ≤ ((baseGridCount - 1 : ℕ) : ℚ) := by exact_mod_cast this
            _ = (baseGridCount : ℚ) - 1 := by norm_num [baseGridCount]
        linarith
      have hle : spacing * ((i : ℚ) + 1) ≤ spacing * (baseGridCount : ℚ) :=
        mul_le_mul_of_nonneg_left hi8 (le_of_lt hspos)
      have hub : spacing * (baseGridCount : ℚ) ≤ basePrice * gridMaxSpread := by
        have hc : (0:ℚ) < (baseGridCount : ℚ) := by norm_num [baseGridCount]
        calc spacing * (baseGridCount : ℚ)
            ≤ basePrice * (gridMaxSpread / baseGridCount) * (baseGridCount : ℚ) :=
              mul_le_mul_of_nonneg_right hsple (le_of_lt hc)
          _ = basePrice * gridMaxSpread := by
              field_simp
      have hlt : basePrice * gridMaxSpread < basePrice := by
        have : gridMaxSpread < 1 := by norm_num [gridMaxSpread]
        nlinarith
      linarith
    have hfilter : ((List.range baseGridCount).map
        (fun i : ℕ => basePrice - spacing * ((i : ℚ) + 1))).filter (fun p => 0 < p) =
        (List.range baseGridCount).map
          (fun i : ℕ => basePrice - spacing * ((i : ℚ) + 1)) := by
      apply List.filter_eq_self.mpr
      intro a ha
      exact decide_eq_true (hpos a ha)
    refine ⟨?_, ?_, ?_, ?_⟩
    · rw [hfilter, List.length_map, List.length_range]
    · rw [List.length_map, List.length_range]
    · intro b hb'
      rw [hfilter, List.mem_map] at hb'
      obtain ⟨i, _, rfl⟩ := hb'
      have : 0 < spacing * ((i : ℚ) + 1) := by positivity
      linarith
    · intro q hq
      rw [List.mem_map] at hq
      obtain ⟨i, _, rfl⟩ := hq
      have : 0 < spacing * ((i : ℚ) + 1) := by positivity
      linarith

/-- Concrete instance of `grid_levels_count_and_sides`: a grid built at price
100 with ATR 1 and no market profile. -/
theorem grid_levels_count_and_sides_witness :
    ∃ plan : GridPlan, initializeGrid 100 1 false 0 = some plan ∧
      (plan.buyLevels.length = baseGridCount ∧
       plan.sellLevels.length = baseGridCount ∧
       (∀ b ∈ plan.buyLevels, b < plan.basePrice) ∧
       (∀ q ∈ plan.sellLevels, plan.basePrice < q)) := by
  have h : initializeGrid 100 1 false 0 = some
      ⟨100, gridSpacing 100 atrMultiplier baseGridCount,
        ((List.range baseGridCount).map
          (fun i : ℕ => 100 - gridSpacing 100 atrMultiplier baseGridCount *
            ((i : ℚ) + 1))).filter (fun p => 0 < p),
        (List.range baseGridCount).map
          (fun i : ℕ => 100 + gridSpacing 100 atrMultiplier baseGridCount *
            ((i : ℚ) + 1))⟩ := by
    unfold initializeGrid
    norm_num [gridModeAtrBased]
  exact ⟨_, h, grid_levels_count_and_sides 100 1 false 0 _ h⟩

/-- C6: the grid rebuild fires exactly when the relative deviation of the
price from the grid base exceeds the rebalance threshold; with base 100 and
threshold 0.05 a move to 106 triggers it and a move to 104 does not. -/
theorem grid_rebalance_iff_threshold :
    (∀ p b : ℚ, gridNeedsRebalance p b = true ↔
      |p - b| / b > gridRebalanceThreshold) ∧
    gridNeedsRebalance 106 100 = true ∧
    gridNeedsRebalance 104 100 = false := by
  refine ⟨fun p b => ?_, by with_unfolding_all decide, by with_unfolding_all decide⟩
  simp [gridNeedsRebalance]

/-- C7 counterexample: with 40 grid levels the lower clamp wins over the
upper clamp, the spacing escapes the claimed interval, and the total grid
span exceeds `base_price * grid_max_spread`. -/
theorem grid_spacing_clamp_counterexample :
    gridSpacing 100 (3/200) 40 * (40:ℚ) > 100 * gridMaxSpread ∧
    ¬ gridSpacing 100 (3/200) 40 ≤ 100 * (gridMaxSpread / (40:ℕ)) := by
  constructor
  · with_unfolding_all decide
  · with_unfolding_all decide

/-- C7 amended: when `level_count * grid_min_spread ≤ grid_max_spread` (true
for the configured count 8, and for any count up to 30) the spacing lands in
`[base * grid_min_spread, base * grid_max_spread / level_count]` and the total
span `spacing * level_count` never exceeds `base * grid_max_spread`. -/
theorem grid_spacing_clamp_bounded (basePrice rawSpacing : ℚ) (levelCount : ℕ)
    (hb : 0 < basePrice) (h0 : 0 < levelCount)
    (hn : (levelCount : ℚ) * gridMinSpread ≤ gridMaxSpread) :
    basePrice * gridMinSpread ≤ gridSpacing basePrice rawSpacing levelCount ∧
    gridSpacing basePrice rawSpacing levelCount
      ≤ basePrice * (gridMaxSpread / levelCount) ∧
    gridSpacing basePrice rawSpacing levelCount * levelCount
      ≤ basePrice * gridMaxSpread := by
  have hle := gridSpacing_le basePrice rawSpacing levelCount hb h0 hn
  have hc : (0:ℚ) < (levelCount : ℚ) := by exact_mod_cast h0
  refine ⟨le_max_left _ _, hle, ?_⟩
  calc gridSpacing basePrice rawSpacing levelCount * levelCount
      ≤ basePrice * (gridMaxSpread / levelCount) * levelCount :=
        mul_le_mul_of_nonneg_right hle (le_of_lt hc)
    _ = basePrice * gridMaxSpread := by field_simp

/-- Concrete instance of `grid_spacing_clamp_bounded` at the configured level
count of 8. -/
theorem grid_spacing_clamp_bounded_witness :
    (0:ℚ) < 100 ∧ 0 < baseGridCount ∧
      ((baseGridCount : ℚ) * gridMinSpread ≤ gridMaxSpread) ∧
    (100 * gridMinSpread ≤ gridSpacing 100 1 baseGridCount ∧
     gridSpacing 100 1 baseGridCount ≤ 100 * (gridMaxSpread / baseGridCount) ∧
     gridSpacing 100 1 baseGridCount * baseGridCount ≤ 100 * gridMaxSpread) :=
  ⟨by norm_num, by decide, by with_unfolding_all decide,
    grid_spacing_clamp_bounded 100 1 baseGridCount (by norm_num) (by decide)
      (by with_unfolding_all decide)⟩

/-! ### Indicator engine (`calculate_technical_indicators`) -/

/-- Python slice `l[-n:]` (for positive `n`): the last `n` entries. -/
def lastN (l : List ℚ) (n : ℕ) : List ℚ := l.drop (l.length - n)

/-- Model of `np.mean` over a price list, modelled as exact rational mean. -/
def listMean (l : List ℚ) : ℚ := l.sum / l.length

/-- Model of `[abs(prices[i] - prices[i-1]) for i in range(1, len(prices))]`. -/
def absDiffs (l : List ℚ) : List ℚ := List.zipWith (fun a b => |b - a|) l l.tail

/-- The indicator fields mutated by `calculate_technical_indicators`:
`sma_20`, `sma_50`, `atr_value`, `volatility_ratio` (here `volatilityVal`),
`trend_direction`, `current_bias`, `price_momentum`. -/
structure Indicators where
  sma20 : ℚ
  sma50 : ℚ
  atrValue : ℚ
  volatilityVal : ℚ
  trendDirection : ℤ
  currentBias : ℤ
  priceMomentum : ℚ
deriving Repr, DecidableEq

/-- All indicator fields start at zero in `__init__`. -/
def initialIndicators : Indicators := ⟨0, 0, 0, 0, 0, 0, 0⟩

/-- Model of `calculate_technical_indicators` (source lines 285-333), as a state update
on the indicator fields given the price history and the `current_price`
field.  `prices` is the slice `price_history[pair][-100:]`; each field is
recomputed only when its guard holds, and keeps its previous value otherwise.
The guards mirror the source: 20 samples for the SMAs, 50 for `sma_50` and
the trend, `atr_period` for the ATR, 10 for the momentum.  The source
computes `volatility_ratio = atr / price * 1000` (per-mille). -/
def calculateTechnicalIndicators (st : Indicators) (priceHistory : List ℚ)
    (currentPrice : ℚ) : Indicators :=
  let prices := lastN priceHistory 100
  if prices.length < 20 then st
  else
    let sma20 := listMean (lastN prices 20)
    let sma50 := if 50 ≤ prices.length then listMean (lastN prices 50) else st.sma50
    let highLow := absDiffs prices
    let atrValue :=
      if atrPeriod ≤ prices.length then listMean (lastN highLow atrPeriod)
      else st.atrValue
    let volatilityVal :=
      if 0 < currentPrice then atrValue / currentPrice * 1000 else st.volatilityVal
    let trendDirection :=
      if trendPeriod ≤ prices.length then
        let recentAvg := listMean (lastN prices 10)
        let olderAvg := listMean ((lastN prices trendPeriod).take (trendPeriod - 10))
        let priceChange := (recentAvg - olderAvg) / olderAvg
        if priceChange > trendStrengthThreshold then (1 : ℤ)
        else if priceChange < -trendStrengthThreshold then -1
        else 0
      else st.trendDirection
    let priceMomentum :=
      if 10 ≤ prices.length then
        ((lastN prices 10).getLastD 0 - (lastN prices 10).headD 0) /
          (lastN prices 10).headD 0
      else st.priceMomentum
    let currentBias : ℤ :=
      if currentPrice > sma20 then 1
      else if currentPrice < sma20 then -1
      else 0
    ⟨sma20, sma50, atrValue, volatilityVal, trendDirection, currentBias,
      priceMomentum⟩

/-- The bias rule exactly as the specification words it: `+1` when
`sma_short > sma_long` and `price > sma_short`, `-1` when both comparisons
are reversed, `0` otherwise. -/
def currentBiasSpec (price smaShort smaLong : ℚ) : ℤ :=
  if smaShort > smaLong ∧ price > smaShort then 1
  else if smaShort < smaLong ∧ price < smaShort then -1
  else 0

/-- The trend rule exactly as the specification words it: `+1` when
`price > sma_long * (1 + threshold)`, `-1` when
`price < sma_long * (1 - threshold)`, `0` otherwise. -/
def trendDirectionSpec (price smaLong threshold : ℚ) : ℤ :=
  if price > smaLong * (1 + threshold) then 1
  else if price < smaLong * (1 - threshold) then -1
  else 0

lemma calcTI_sma20 (st : Indicators) (priceHistory : List ℚ) (currentPrice : ℚ)
    (h : ¬ (lastN priceHistory 100).length < 20) :
    (calculateTechnicalIndicators st priceHistory currentPrice).sma20 =
      listMean (lastN (lastN priceHistory 100) 20) := by
  simp only [calculateTechnicalIndicators]
  rw [if_neg h]

lemma calcTI_sma50 (st : Indicators) (priceHistory : List ℚ) (currentPrice : ℚ)
    (h : ¬ (lastN priceHistory 100).length < 20)
    (h50 : 50 ≤ (lastN priceHistory 100).length) :
    (calculateTechnicalIndicators st priceHistory currentPrice).sma50 =
      listMean (lastN (lastN priceHistory 100) 50) := by
  simp only [calculateTechnicalIndicators]
  rw [if_neg h]
  simp only [if_pos h50]

lemma calcTI_currentBias (st : Indicators) (priceHistory : List ℚ)
    (currentPrice : ℚ) (h : ¬ (lastN priceHistory 100).length < 20) :
    (calculateTechnicalIndicators st priceHistory currentPrice).currentBias =
      (if currentPrice > listMean (lastN (lastN priceHistory 100) 20) then 1
       else if currentPrice < listMean (lastN (lastN priceHistory 100) 20) then -1
       else 0) := by
  simp only [calculateTechnicalIndicators]
  rw [if_neg h]

lemma calcTI_atrValue (st : Indicators) (priceHistory : List ℚ)
    (currentPrice : ℚ) (h : ¬ (lastN priceHistory 100).length < 20)
    (h14 : atrPeriod ≤ (lastN priceHistory 100).length) :
    (calculateTechnicalIndicators st priceHistory currentPrice).atrValue =
      listMean (lastN (absDiffs (lastN priceHistory 100)) atrPeriod) := by
  simp only [calculateTechnicalIndicators]
  rw [if_neg h]
  simp only [if_pos h14]

lemma calcTI_volatilityVal (st : Indicators) (priceHistory : List ℚ)
    (currentPrice : ℚ) (h : ¬ (lastN priceHistory 100).length < 20)
    (hcp : 0 < currentPrice) :
    (calculateTechnicalIndicators st priceHistory currentPrice).volatilityVal =
      (calculateTechnicalIndicators st priceHistory currentPrice).atrValue /
        currentPrice * 1000 := by
  simp only [calculateTechnicalIndicators]
  rw [if_neg h]
  simp only [if_pos hcp]

lemma calcTI_trendDirection (st : Indicators) (priceHistory : List ℚ)
    (currentPrice : ℚ) (h : ¬ (lastN priceHistory 100).length < 20)
    (h50 : trendPeriod ≤ (lastN priceHistory 100).length) :
    (calculateTechnicalIndicators st priceHistory currentPrice).trendDirection =
      (if (listMean (lastN (lastN priceHistory 100) 10) -
            listMean ((lastN (lastN priceHistory 100) trendPeriod).take
              (trendPeriod - 10))) /
            listMean ((lastN (lastN priceHistory 100) trendPeriod).take
              (trendPeriod - 10)) > trendStrengthThreshold then 1
       else if (listMean (lastN (lastN priceHistory 100) 10) -
            listMean ((lastN (lastN priceHistory 100) trendPeriod).take
              (trendPeriod - 10))) /
            listMean ((lastN (lastN priceHistory 100) trendPeriod).take
              (trendPeriod - 10)) < -trendStrengthThreshold then -1
       else 0) := by
  simp only [calculateTechnicalIndicators]
  rw [if_neg h]
  simp only [if_pos h50]

/-- Price history for the bias counterexample: thirty samples at 120 followed
by nineteen at 100 and a last sample at 101, so that the short SMA sits just
below the current price while the long SMA sits far above it. -/
def biasHistory : List ℚ :=
  List.replicate 30 120 ++ (List.replicate 19 100 ++ [101])

lemma biasHistory_length : biasHistory.length = 50 := by
  simp [biasHistory]

lemma biasHistory_lastN100 : lastN biasHistory 100 = biasHistory := by
  simp [lastN, biasHistory_length]

lemma biasHistory_sma20 : listMean (lastN biasHistory 20) = 2001/20 := by
  have hdrop : biasHistory.drop 30 = List.replicate 19 (100:ℚ) ++ [101] := by
    rw [biasHistory]
    exact List.drop_left' (by simp)
  rw [lastN, biasHistory_length]
  norm_num [hdrop, listMean, List.sum_append, List.sum_replicate]

lemma biasHistory_sma50 : listMean (lastN biasHistory 50) = 5601/50 := by
  rw [lastN, biasHistory_length]
  norm_num [biasHistory, listMean, List.sum_append, List.sum_replicate]

/-- C3 counterexample: on `biasHistory` the code's bias is `+1` (the price
101 is above the short SMA 100.05) although the spec's strict-AND rule gives
`0` because the short SMA is far below the long SMA (a mixed signal). -/
theorem bias_mixed_signal_counterexample :
    (calculateTechnicalIndicators initialIndicators biasHistory 101).currentBias
        = 1 ∧
    currentBiasSpec 101
      (calculateTechnicalIndicators initialIndicators biasHistory 101).sma20
      (calculateTechnicalIndicators initialIndicators biasHistory 101).sma50
        = 0 := by
  have h : ¬ (lastN biasHistory 100).length < 20 := by
    rw [biasHistory_lastN100, biasHistory_length]; norm_num
  have h50 : (50:ℕ) ≤ (lastN biasHistory 100).length := by
    rw [biasHistory_lastN100, biasHistory_length]
  have hs20 :
      (calculateTechnicalIndicators initialIndicators biasHistory 101).sma20 =
        2001/20 := by
    rw [calcTI_sma20 _ _ _ h, biasHistory_lastN100, biasHistory_sma20]
  have hs50 :
      (calculateTechnicalIndicators initialIndicators biasHistory 101).sma50 =
        5601/50 := by
    rw [calcTI_sma50 _ _ _ h h50, biasHistory_lastN100, biasHistory_sma50]
  constructor
  · rw [calcTI_currentBias _ _ _ h, biasHistory_lastN100, biasHistory_sma20]
    norm_num
  · rw [hs20, hs50, currentBiasSpec]
    norm_num

/-- C3 amended: the code's bias depends only on the comparison of the current
price with the 20-sample SMA; it is `+1` exactly when the price is above it,
`-1` exactly when below, and `0` exactly at equality — the long SMA is never
consulted. -/
theorem bias_sign_of_price_vs_sma20 (st : Indicators) (priceHistory : List ℚ)
    (currentPrice : ℚ) (h : ¬ (lastN priceHistory 100).length < 20) :
    ((calculateTechnicalIndicators st priceHistory currentPrice).currentBias = 1
      ↔ listMean (lastN (lastN priceHistory 100) 20) < currentPrice) ∧
    ((calculateTechnicalIndicators st priceHistory currentPrice).currentBias = -1
      ↔ currentPrice < listMean (lastN (lastN priceHistory 100) 20)) ∧
    ((calculateTechnicalIndicators st priceHistory currentPrice).currentBias = 0
      ↔ currentPrice = listMean (lastN (lastN priceHistory 100) 20)) := by
  rw [calcTI_currentBias _ _ _ h]
  rcases lt_trichotomy currentPrice (listMean (lastN (lastN priceHistory 100) 20))
    with hc | hc | hc
  · rw [if_neg (not_lt.mpr hc.le), if_pos hc]
    exact ⟨iff_of_false (by norm_num) (not_lt.mpr hc.le),
      iff_of_true rfl hc,
      iff_of_false (by norm_num) (ne_of_lt hc)⟩
  · rw [if_neg (by rw [hc]; exact lt_irrefl _),
      if_neg (by rw [hc]; exact lt_irrefl _)]
    exact ⟨iff_of_false (by norm_num) (by rw [hc]; exact lt_irrefl _),
      iff_of_false (by norm_num) (by rw [hc]; exact lt_irrefl _),
      iff_of_true rfl hc⟩
  · rw [if_pos hc]
    exact ⟨iff_of_true rfl hc,
      iff_of_false (by norm_num) (not_lt.mpr hc.le),
      iff_of_false (by norm_num) (ne_of_gt hc)⟩

/-- Concrete instance of `bias_sign_of_price_vs_sma20` on `biasHistory`. -/
theorem bias_sign_of_price_vs_sma20_witness :
    ¬ (lastN biasHistory 100).length < 20 ∧
    ((calculateTechnicalIndicators initialIndicators biasHistory 101).currentBias
      = 1 ↔ listMean (lastN (lastN biasHistory 100) 20) < 101) := by
  have h : ¬ (lastN biasHistory 100).length < 20 := by
    rw [biasHistory_lastN100, biasHistory_length]; norm_num
  exact ⟨h, (bias_sign_of_price_vs_sma20 initialIndicators biasHistory 101 h).1⟩

/-- Price history for the trend counterexample: forty samples at 100, nine at
104, and a last sample back at 100.  The 10-sample recent average is pulled
well above the 40-sample older average while the last price sits close to the
50-sample SMA. -/
def trendHistory : List ℚ :=
  List.replicate 40 100 ++ (List.replicate 9 104 ++ [100])

lemma trendHistory_length : trendHistory.length = 50 := by
  simp [trendHistory]

lemma trendHistory_lastN100 : lastN trendHistory 100 = trendHistory := by
  simp [lastN, trendHistory_length]

lemma trendHistory_recent : listMean (lastN trendHistory 10) = 518/5 := by
  have hdrop : trendHistory.drop 40 = List.replicate 9 (104:ℚ) ++ [100] := by
    rw [trendHistory]
    exact List.drop_left' (by simp)
  rw [lastN, trendHistory_length]
  norm_num [hdrop, listMean, List.sum_append, List.sum_replicate]

lemma trendHistory_older :
    listMean ((lastN trendHistory trendPeriod).take (trendPeriod - 10)) = 100 := by
  have hl : lastN trendHistory trendPeriod = trendHistory := by
    simp [lastN, trendHistory_length, trendPeriod]
  have htake : trendHistory.take 40 = List.replicate 40 (100:ℚ) := by
    rw [trendHistory]
    exact List.take_left' (by simp)
  rw [hl]
  norm_num [trendPeriod, htake, listMean, List.sum_replicate]

lemma trendHistory_sma50 : listMean (lastN trendHistory 50) = 2518/25 := by
  rw [lastN, trendHistory_length]
  norm_num [trendHistory, listMean, List.sum_append, List.sum_replicate]

/-- C4 counterexample: on `trendHistory` the code's trend direction is `+1`
(the 10-sample average 103.6 exceeds the older 40-sample average 100 by
3.6 %), while the spec's formula `price` versus `sma_long * (1 ± threshold)`
yields `0` at the current price 100 with `sma_50 = 100.72`. -/
theorem trend_formula_counterexample :
    (calculateTechnicalIndicators initialIndicators trendHistory 100).trendDirection
        = 1 ∧
    trendDirectionSpec 100
      (calculateTechnicalIndicators initialIndicators trendHistory 100).sma50
      trendStrengthThreshold = 0 := by
  have h : ¬ (lastN trendHistory 100).length < 20 := by
    rw [trendHistory_lastN100, trendHistory_length]; norm_num
  have h50 : trendPeriod ≤ (lastN trendHistory 100).length := by
    rw [trendHistory_lastN100, trendHistory_length, trendPeriod]
  constructor
  · rw [calcTI_trendDirection _ _ _ h h50, trendHistory_lastN100,
      trendHistory_recent, trendHistory_older]
    norm_num [trendStrengthThreshold]
  · have hs50 :
        (calculateTechnicalIndicators initialIndicators trendHistory 100).sma50 =
          2518/25 := by
      rw [calcTI_sma50 _ _ _ h (by rw [trendHistory_lastN100, trendHistory_length]),
        trendHistory_lastN100, trendHistory_sma50]
    rw [hs50, trendDirectionSpec]
    norm_num [trendStrengthThreshold]

/-- C4 amended: the code's trend direction is the sign, thresholded at
`trend_strength_threshold`, of the relative change between the mean of the
last 10 samples and the mean of the 40 samples before them — not a comparison
of the price against `sma_long * (1 ± threshold)`. -/
theorem trend_from_segment_averages (st : Indicators) (priceHistory : List ℚ)
    (currentPrice recentAvg olderAvg : ℚ)
    (h : ¬ (lastN priceHistory 100).length < 20)
    (h50 : trendPeriod ≤ (lastN priceHistory 100).length)
    (hr : recentAvg = listMean (lastN (lastN priceHistory 100) 10))
    (ho : olderAvg = listMean ((lastN (lastN priceHistory 100) trendPeriod).take
      (trendPeriod - 10))) :
    ((calculateTechnicalIndicators st priceHistory currentPrice).trendDirection = 1
      ↔ (recentAvg - olderAvg) / olderAvg > trendStrengthThreshold) ∧
    ((calculateTechnicalIndicators st priceHistory currentPrice).trendDirection = -1
      ↔ (recentAvg - olderAvg) / olderAvg < -trendStrengthThreshold) ∧
    ((calculateTechnicalIndicators st priceHistory currentPrice).trendDirection = 0
      ↔ -trendStrengthThreshold ≤ (recentAvg - olderAvg) / olderAvg ∧
        (recentAvg - olderAvg) / olderAvg ≤ trendStrengthThreshold) := by
  subst hr ho
  rw [calcTI_trendDirection _ _ _ h h50]
  set pc := (listMean (lastN (lastN priceHistory 100) 10) -
      listMean ((lastN (lastN priceHistory 100) trendPeriod).take
        (trendPeriod - 10))) /
      listMean ((lastN (lastN priceHistory 100) trendPeriod).take
        (trendPeriod - 10)) with hpc
  have hθ : (0:ℚ) < trendStrengthThreshold := by norm_num [trendStrengthThreshold]
  by_cases h1 : pc > trendStrengthThreshold
  · rw [if_pos h1]
    exact ⟨iff_of_true rfl h1, iff_of_false (by norm_num) (by linarith),
      iff_of_false (by norm_num) (fun hcon => by linarith [hcon.2])⟩
  · rw [if_neg h1]
    by_cases h2 : pc < -trendStrengthThreshold
    · rw [if_pos h2]
      exact ⟨iff_of_false (by norm_num) h1, iff_of_true rfl h2,
        iff_of_false (by norm_num) (fun hcon => by linarith [hcon.1])⟩
    · rw [if_neg h2]
      exact ⟨iff_of_false (by norm_num) h1, iff_of_false (by norm_num) h2,
        iff_of_true rfl ⟨by linarith [not_lt.mp h2], by linarith [not_lt.mp h1]⟩⟩

/-- Concrete instance of `trend_from_segment_averages` on `trendHistory`. -/
theorem trend_from_segment_averages_witness :
    ¬ (lastN trendHistory 100).length < 20 ∧
    ((calculateTechnicalIndicators initialIndicators trendHistory 100).trendDirection
      = 1 ↔ ((518:ℚ)/5 - 100) / 100 > trendStrengthThreshold) := by
  have h : ¬ (lastN trendHistory 100).length < 20 := by
    rw [trendHistory_lastN100, trendHistory_length]; norm_num
  have h50 : trendPeriod ≤ (lastN trendHistory 100).length := by
    rw [trendHistory_lastN100, trendHistory_length, trendPeriod]
  exact ⟨h, (trend_from_segment_averages initialIndicators trendHistory 100
    (518/5) 100 h h50
    (by rw [trendHistory_lastN100, trendHistory_recent])
    (by rw [trendHistory_lastN100, trendHistory_older])).1⟩

/-! ### Flat-series scenario (C10) -/

/-- One hundred identical samples at price 2.50. -/
def flatHistory : List ℚ := List.replicate 100 (5/2)

lemma absDiffs_replicate (n : ℕ) (c : ℚ) :
    absDiffs (List.replicate n c) = List.replicate (n - 1) 0 := by
  rw [absDiffs, List.tail_replicate, List.zipWith_replicate]
  have hmin : min n (n - 1) = n - 1 := by omega
  rw [hmin]
  norm_num

lemma flatHistory_atr :
    (calculateTechnicalIndicators initialIndicators flatHistory (5/2)).atrValue
      = 0 := by
  have hl : lastN flatHistory 100 = flatHistory := by
    simp [lastN, flatHistory]
  have h : ¬ (lastN flatHistory 100).length < 20 := by
    rw [hl]; simp [flatHistory]
  have h14 : atrPeriod ≤ (lastN flatHistory 100).length := by
    rw [hl]; simp [flatHistory, atrPeriod]
  rw [calcTI_atrValue _ _ _ h h14, hl, flatHistory, absDiffs_replicate]
  rw [lastN, List.drop_replicate]
  simp [listMean, List.sum_replicate]

/-- C10 counterexample: on the flat series the ATR and the volatility are
both 0, but `initialize_grid` then returns without building any grid at all
(its guard requires a strictly positive ATR), so no plan with min-clamped
spacing ever exists. -/
theorem flat_series_grid_counterexample :
    (calculateTechnicalIndicators initialIndicators flatHistory (5/2)).atrValue
        = 0 ∧
    (calculateTechnicalIndicators initialIndicators flatHistory (5/2)).volatilityVal
        = 0 ∧
    initializeGrid (5/2)
      (calculateTechnicalIndicators initialIndicators flatHistory (5/2)).atrValue
      false 0 = none := by
  have hl : lastN flatHistory 100 = flatHistory := by
    simp [lastN, flatHistory]
  have h : ¬ (lastN flatHistory 100).length < 20 := by
    rw [hl]; simp [flatHistory]
  refine ⟨flatHistory_atr, ?_, ?_⟩
  · rw [calcTI_volatilityVal _ _ _ h (by norm_num), flatHistory_atr]
    norm_num
  · rw [flatHistory_atr, initializeGrid, if_pos (Or.inr le_rfl)]

/-- C10 amended: the flat series does give `atr = 0` and `volatility = 0`,
but the grid is then not built at all: `initialize_grid` returns no plan
whenever the ATR is not strictly positive, so the min-spacing clamp is never
reached. -/
theorem flat_series_indicators_no_grid :
    ((calculateTechnicalIndicators initialIndicators flatHistory (5/2)).atrValue
        = 0 ∧
     (calculateTechnicalIndicators initialIndicators flatHistory (5/2)).volatilityVal
        = 0) ∧
    ∀ (currentPrice atrValue : ℚ) (mpIsValid : Bool) (mpPocPrice : ℚ),
      atrValue ≤ 0 →
      initializeGrid currentPrice atrValue mpIsValid mpPocPrice = none := by
  constructor
  · have hl : lastN flatHistory 100 = flatHistory := by
      simp [lastN, flatHistory]
    have h : ¬ (lastN flatHistory 100).length < 20 := by
      rw [hl]; simp [flatHistory]
    refine ⟨flatHistory_atr, ?_⟩
    rw [calcTI_volatilityVal _ _ _ h (by norm_num), flatHistory_atr]
    norm_num
  · intro currentPrice atrValue mpIsValid mpPocPrice hatr
    rw [initializeGrid, if_pos (Or.inr hatr)]

/-- Concrete instance of the universally quantified part of
`flat_series_indicators_no_grid`. -/
theorem flat_series_indicators_no_grid_witness :
    (0:ℚ) ≤ 0 ∧ initializeGrid 1 0 false 0 = none :=
  ⟨le_refl 0, flat_series_indicators_no_grid.2 1 0 false 0 (le_refl 0)⟩

/-! ### Risk gate (`risk_management_check`) -/

/-- The restriction reasons produced by `risk_management_check`, one
constructor per human-readable message of the source (lines 818-856). -/
inductive RestrictionReason
  | noRestriction
  | balanceBelowMinimum
  | portfolioRiskTooHigh
  | tooManyActiveTrades
  | tooManyConsecutiveLosses
  | dailyLossLimitExceeded
  | emergencyDrawdownStop
deriving Repr, DecidableEq

/-- The account and trade facts read by `risk_management_check`:
`account_balance`, `current_portfolio_risk`, `active_trades_count`,
`consecutive_losses`, `daily_pnl`, `max_drawdown`. -/
structure RiskInputs where
  accountBalance : ℚ
  currentPortfolioRisk : ℚ
  activeTradesCount : ℕ
  consecutiveLosses : ℕ
  dailyPnl : ℚ
  maxDrawdown : ℚ
deriving Repr, DecidableEq

/-- Model of `risk_management_check` (source lines 811-863): six checks in order,
each returning immediately with `can_trade = False` and its reason.  The
daily-loss percentage `abs(daily_pnl)/balance*100` is computed before its
condition is tested, exactly as in the source (balance is at least the
minimum threshold at that point, so the division is safe). -/
def riskManagementCheck (s : RiskInputs) : Bool × RestrictionReason :=
  if s.accountBalance < minBalanceThreshold then
    (false, .balanceBelowMinimum)
  else if s.currentPortfolioRisk > maxPortfolioRisk then
    (false, .portfolioRiskTooHigh)
  else if s.activeTradesCount ≥ maxConcurrentTrades then
    (false, .tooManyActiveTrades)
  else if s.consecutiveLosses ≥ maxConsecutiveLosses then
    (false, .tooManyConsecutiveLosses)
  else
    let dailyLossPct := |s.dailyPnl| / s.accountBalance * 100
    if s.dailyPnl < 0 ∧ dailyLossPct > dailyLossLimit then
      (false, .dailyLossLimitExceeded)
    else if s.maxDrawdown > emergencyStopDrawdown then
      (false, .emergencyDrawdownStop)
    else (true, .noRestriction)

/-- The six checks in the order the specification lists them, each paired
with its reason.  This is the spec-side description (\"first failing check
wins\") against which `riskManagementCheck` is compared. -/
def riskChecksInOrder (s : RiskInputs) : List (Bool × RestrictionReason) :=
  [ (decide (s.accountBalance < minBalanceThreshold), .balanceBelowMinimum),
    (decide (s.currentPortfolioRisk > maxPortfolioRisk), .portfolioRiskTooHigh),
    (decide (s.activeTradesCount ≥ maxConcurrentTrades), .tooManyActiveTrades),
    (decide (s.consecutiveLosses ≥ maxConsecutiveLosses),
      .tooManyConsecutiveLosses),
    (decide (s.dailyPnl < 0 ∧ |s.dailyPnl| / s.accountBalance * 100 >
      dailyLossLimit), .dailyLossLimitExceeded),
    (decide (s.maxDrawdown > emergencyStopDrawdown), .emergencyDrawdownStop) ]

/-- The reason of the first failing check in spec order, if any. -/
def firstFailingCheck (s : RiskInputs) : Option RestrictionReason :=
  ((riskChecksInOrder s).find? (fun c => c.1)).map (fun c => c.2)

/-- C8: the risk gate is exactly \"first failing check wins\" over the six
checks in the fixed order balance, portfolio risk, concurrent trades,
consecutive losses, daily loss, drawdown; in particular when the balance is
below the minimum and the portfolio risk is above its maximum simultaneously,
the reported reason is the balance check's. -/
theorem risk_check_first_failure_order :
    (∀ s : RiskInputs,
      riskManagementCheck s =
        match firstFailingCheck s with
        | some r => (false, r)
        | none => (true, RestrictionReason.noRestriction)) ∧
    (∀ s : RiskInputs, s.accountBalance < minBalanceThreshold →
      s.currentPortfolioRisk > maxPortfolioRisk →
      riskManagementCheck s = (false, RestrictionReason.balanceBelowMinimum)) := by
  constructor
  · intro s
    rw [riskManagementCheck, firstFailingCheck, riskChecksInOrder]
    split_ifs with h1 h2 h3 h4 h5 <;> simp [List.find?, *]
    all_goals (split_ifs with hd <;> simp [← Bool.decide_and, hd, *])
  · intro s h1 _
    rw [riskManagementCheck, if_pos h1]

/-- Concrete instance of `risk_check_first_failure_order`: balance 10 (below
50) and portfolio risk 20 (above 12) report the balance reason. -/
theorem risk_check_first_failure_order_witness :
    (10:ℚ) < minBalanceThreshold ∧ (20:ℚ) > maxPortfolioRisk ∧
    riskManagementCheck ⟨10, 20, 0, 0, 0, 0⟩ =
      (false, RestrictionReason.balanceBelowMinimum) :=
  ⟨by norm_num [minBalanceThreshold], by norm_num [maxPortfolioRisk],
    risk_check_first_failure_order.2 ⟨10, 20, 0, 0, 0, 0⟩
      (by norm_num [minBalanceThreshold]) (by norm_num [maxPortfolioRisk])⟩

/-! ### Launch strategy (`execute_launch_strategy` and helpers) -/

/-- The `'buy'` / `'sell'` direction strings of a launch signal. -/
inductive TradeDirection
  | buy
  | sell
deriving Repr, DecidableEq

/-- A launch signal dictionary as built in `detect_needle_formations`. -/
structure LaunchSignal where
  direction : TradeDirection
  level : ℚ
  confidence : ℚ
  entryPrice : ℚ
  stopLoss : ℚ
  takeProfit : ℚ
deriving Repr, DecidableEq

/-- The state mutated by the launch strategy: `launch_session_active`,
`launch_high`, `launch_low`, `launch_range_confirmed`, `last_launch_trade`
(a timestamp in minutes) and `total_launch_trades`. -/
structure LaunchState where
  sessionActive : Bool
  launchHigh : Option ℚ
  launchLow : Option ℚ
  rangeConfirmed : Bool
  lastLaunchTrade : ℚ
  totalLaunchTrades : ℕ
deriving Repr, DecidableEq

/-- The per-tick inputs the launch strategy reads:
`datetime.now().time()` (as minutes of the day), `datetime.now()` (as minutes
on the absolute time line), `current_price`, `price_history`,
`current_bias`, `volatility_ratio` (here `volatilityVal`) and
`account_balance`. -/
structure TickInput where
  timeOfDayMinutes : ℚ
  nowMinutes : ℚ
  currentPrice : ℚ
  priceHistory : List ℚ
  currentBias : ℤ
  volatilityVal : ℚ
  accountBalance : ℚ
deriving Repr, DecidableEq

/-- Python truthiness of an optional `Decimal` field:
`not self.launch_high` is true when the field is `None` or equal to zero. -/
def decimalTruthy (o : Option ℚ) : Bool :=
  match o with
  | none => false
  | some x => decide (x ≠ 0)

/-- Rejection kind `'high'` / `'low'` of `calculate_wick_body_ratio`. -/
inductive RejectionSide
  | highSide
  | lowSide
deriving Repr, DecidableEq

/-- Python `max` over a nonempty rational list (head plus tail). -/
def listMax (p : ℚ) (ps : List ℚ) : ℚ := ps.foldl max p

/-- Python `min` over a nonempty rational list (head plus tail). -/
def listMin (p : ℚ) (ps : List ℚ) : ℚ := ps.foldl min p

/-- Model of `calculate_wick_body_ratio` (source lines 595-621): the body is the move
between the last two samples, the wick is measured from the extreme of the
last three samples; a zero body yields 0. -/
def calculateWickBody (candles : List ℚ) (side : RejectionSide) : ℚ :=
  if candles.length < 2 then 0
  else
    let cur := candles.getLastD 0
    let prev := candles.dropLast.getLastD 0
    let bodySize := |cur - prev|
    let last3 := lastN candles 3
    let wickSize :=
      match side with
      | .highSide => listMax (last3.headD 0) last3.tail - max cur prev
      | .lowSide => min cur prev - listMin (last3.headD 0) last3.tail
    if bodySize > 0 then wickSize / bodySize else 0

/-- Model of `calculate_signal_confidence` (source lines 623-648).
`enable_bias_filter` is `True` in the configuration.  The volume bonus can
never apply: the attribute `current_volume_ratio` tested with `hasattr` is
never assigned anywhere in the class, so that branch is dead code.  The
result is clamped to `[0, 1]`. -/
def calculateSignalConfidence (direction : TradeDirection) (bias : ℤ)
    (volVal : ℚ) : ℚ :=
  let c0 : ℚ := 1/2
  let c1 :=
    if direction = TradeDirection.buy ∧ bias ≥ 0 then c0 + 1/5
    else if direction = TradeDirection.sell ∧ bias ≤ 0 then c0 + 1/5
    else c0 - 1/10
  let c2 := if 1 ≤ volVal ∧ volVal ≤ 3 then c1 + 1/5 else c1
  min 1 (max 0 c2)

/-- Model of `detect_needle_formations` (source lines 545-593).  `recent_prices` is
the slice `price_history[pair][-10:]`; fewer than 5 samples yield no signal.
The bearish branch needs the last sample within 0.5 % below the session high,
a downward last move and a wick/body of at least `needle_body_ratio`; the
bullish branch is symmetric at the session low.  The two branches are
appended in source order. -/
def detectNeedleFormations (priceHistory : List ℚ)
    (launchHigh launchLow : Option ℚ) (currentPrice : ℚ) (bias : ℤ)
    (volVal : ℚ) : List LaunchSignal :=
  let recentPrices := lastN priceHistory 10
  if recentPrices.length < 5 then []
  else
    let cur := recentPrices.getLastD 0
    let prev := recentPrices.dropLast.getLastD 0
    let bearish :=
      if cur ≥ launchHigh.getD 0 * (199/200) ∧ cur < prev ∧
          calculateWickBody recentPrices .highSide ≥ needleBodyMin then
        [⟨TradeDirection.sell, launchHigh.getD 0,
          calculateSignalConfidence .sell bias volVal, currentPrice,
          launchHigh.getD 0 * (101/100), launchLow.getD 0⟩]
      else []
    let bullish :=
      if cur ≤ launchLow.getD 0 * (201/200) ∧ cur > prev ∧
          calculateWickBody recentPrices .lowSide ≥ needleBodyMin then
        [⟨TradeDirection.buy, launchLow.getD 0,
          calculateSignalConfidence .buy bias volVal, currentPrice,
          launchLow.getD 0 * (99/100), launchHigh.getD 0⟩]
      else []
    bearish ++ bullish

/-- Banker's rounding to four decimal places:
`Decimal.quantize(Decimal('0.0001'))` with the default `ROUND_HALF_EVEN`. -/
def quantizeFour (x : ℚ) : ℚ :=
  let y := x * 10000
  let q := ⌊y⌋
  let r := y - q
  let z : ℤ :=
    if r > 1/2 then q + 1
    else if r < 1/2 then q
    else if q % 2 = 0 then q else q + 1
  (z : ℚ) / 10000

/-- Model of `calculate_position_size` (source lines 933-962): risk budget
`balance * max_single_position / 100` divided by the entry-to-stop distance,
capped by the maximum position value in units, floored at 0 and rounded to
four decimals. -/
def calculatePositionSize (sig : LaunchSignal) (accountBalance : ℚ) : ℚ :=
  let maxPositionValue := accountBalance * (maxSinglePosition / 100)
  if sig.entryPrice > 0 ∧ sig.stopLoss > 0 then
    let riskPerUnit := |sig.entryPrice - sig.stopLoss|
    if riskPerUnit > 0 then
      let riskAmount := accountBalance * (maxSinglePosition / 100)
      let positionSize := riskAmount / riskPerUnit
      let maxUnits := maxPositionValue / sig.entryPrice
      max 0 (quantizeFour (min positionSize maxUnits))
    else 0
  else 0

/-- Model of `validate_launch_signal` (source lines 650-670): minimum confidence 0.6,
positive position size, and — `enable_volatility_filter` being `True` — a
volatility value of at least `volatility_threshold`. -/
def validateLaunchSignal (sig : LaunchSignal) (accountBalance volVal : ℚ) :
    Bool :=
  if sig.confidence < 3/5 then false
  else if calculatePositionSize sig accountBalance ≤ 0 then false
  else if volVal < volatilityThreshold then false
  else true

/-- Model of `execute_launch_trade` (source lines 672-707): nothing happens on a
non-positive position size; otherwise the market order is handed to the
exchange collaborator (modelled as succeeding, per the interface contract)
and `last_launch_trade` / `total_launch_trades` are updated. -/
def executeLaunchTrade (s : LaunchState) (nowMinutes : ℚ)
    (sig : LaunchSignal) (accountBalance : ℚ) : LaunchState :=
  if calculatePositionSize sig accountBalance ≤ 0 then s
  else
    ⟨s.sessionActive, s.launchHigh, s.launchLow, s.rangeConfirmed, nowMinutes,
      s.totalLaunchTrades + 1⟩

/-- The `for signal in launch_signals` loop of `check_launch_opportunities`:
each detected signal is validated and, if valid, executed. -/
def processSignals (i : TickInput) (sigs : List LaunchSignal)
    (s : LaunchState) : LaunchState :=
  sigs.foldl
    (fun st sig =>
      if validateLaunchSignal sig i.accountBalance i.volatilityVal then
        executeLaunchTrade st i.nowMinutes sig i.accountBalance
      else st) s

/-- Model of `check_launch_opportunities` (source lines 524-543): bail out unless the
range is confirmed and both extremes are truthy; bail out inside the
cooldown window (`(now - last_launch_trade)` in minutes below
`launch_cooldown_minutes`); otherwise detect needle formations and process
them. -/
def checkLaunchOpportunities (s : LaunchState) (i : TickInput) : LaunchState :=
  if ¬ s.rangeConfirmed ∨ ¬ decimalTruthy s.launchHigh ∨
      ¬ decimalTruthy s.launchLow then s
  else if i.nowMinutes - s.lastLaunchTrade < launchCooldownMinutes then s
  else
    processSignals i
      (detectNeedleFormations i.priceHistory s.launchHigh s.launchLow
        i.currentPrice i.currentBias i.volatilityVal) s

/-- Model of `monitor_launch_levels` (source lines 503-522): raise the session high,
lower the session low (both seeded from the current price when still `None`),
then confirm the range when `(high - low)/price` lies within
`[launch_min_range_pct, launch_max_range_pct]`.  `range_confirmed` is only
ever set, never cleared. -/
def monitorLaunchLevels (s : LaunchState) (currentPrice : ℚ) : LaunchState :=
  let launchHigh :=
    match s.launchHigh with
    | none => some currentPrice
    | some h => if currentPrice > h then some currentPrice else some h
  let launchLow :=
    match s.launchLow with
    | none => some currentPrice
    | some l => if currentPrice < l then some currentPrice else some l
  let rangeConfirmed :=
    if decimalTruthy launchHigh ∧ decimalTruthy launchLow then
      let rangePct := (launchHigh.getD 0 - launchLow.getD 0) / currentPrice
      if launchMinRangePct ≤ rangePct ∧ rangePct ≤ launchMaxRangePct then true
      else s.rangeConfirmed
    else s.rangeConfirmed
  ⟨s.sessionActive, launchHigh, launchLow, rangeConfirmed, s.lastLaunchTrade,
    s.totalLaunchTrades⟩

/-- Model of `execute_launch_strategy` (source lines 487-501): set
`launch_session_active` from the time of day (bounds inclusive, as in the
chained Python comparison), then monitor inside the session window and scan
for opportunities outside it. -/
def executeLaunchStrategy (s : LaunchState) (i : TickInput) : LaunchState :=
  let active := decide (launchTimeStartMin ≤ i.timeOfDayMinutes ∧
    i.timeOfDayMinutes ≤ launchTimeEndMin)
  let s1 : LaunchState := ⟨active, s.launchHigh, s.launchLow, s.rangeConfirmed,
    s.lastLaunchTrade, s.totalLaunchTrades⟩
  if active then monitorLaunchLevels s1 i.currentPrice
  else checkLaunchOpportunities s1 i

lemma executeLaunchTrade_fields (s : LaunchState) (nowMinutes : ℚ)
    (sig : LaunchSignal) (accountBalance : ℚ) :
    (executeLaunchTrade s nowMinutes sig accountBalance).sessionActive =
        s.sessionActive ∧
    (executeLaunchTrade s nowMinutes sig accountBalance).launchHigh =
        s.launchHigh ∧
    (executeLaunchTrade s nowMinutes sig accountBalance).launchLow =
        s.launchLow ∧
    (executeLaunchTrade s nowMinutes sig accountBalance).rangeConfirmed =
        s.rangeConfirmed := by
  unfold executeLaunchTrade
  split_ifs <;> exact ⟨rfl, rfl, rfl, rfl⟩

lemma executeLaunchTrade_cases (s : LaunchState) (nowMinutes : ℚ)
    (sig : LaunchSignal) (accountBalance : ℚ) :
    executeLaunchTrade s nowMinutes sig accountBalance = s ∨
    (executeLaunchTrade s nowMinutes sig accountBalance).lastLaunchTrade =
      nowMinutes := by
  unfold executeLaunchTrade
  split_ifs
  · exact Or.inl rfl
  · exact Or.inr rfl

lemma processSignals_fields (i : TickInput) (sigs : List LaunchSignal)
    (s : LaunchState) :
    (processSignals i sigs s).sessionActive = s.sessionActive ∧
    (processSignals i sigs s).launchHigh = s.launchHigh ∧
    (processSignals i sigs s).launchLow = s.launchLow ∧
    (processSignals i sigs s).rangeConfirmed = s.rangeConfirmed := by
  induction sigs generalizing s with
  | nil => exact ⟨rfl, rfl, rfl, rfl⟩
  | cons sig rest ih =>
    rw [processSignals, List.foldl_cons]
    split_ifs with hv
    · obtain ⟨h1, h2, h3, h4⟩ :=
        ih (executeLaunchTrade s i.nowMinutes sig i.accountBalance)
      obtain ⟨g1, g2, g3, g4⟩ :=
        executeLaunchTrade_fields s i.nowMinutes sig i.accountBalance
      rw [processSignals] at h1 h2 h3 h4
      exact ⟨h1.trans g1, h2.trans g2, h3.trans g3, h4.trans g4⟩
    · have := ih s
      rw [processSignals] at this
      exact this

lemma processSignals_lastTrade_or (i : TickInput) (sigs : List LaunchSignal)
    (s : LaunchState) :
    (processSignals i sigs s).lastLaunchTrade = s.lastLaunchTrade ∨
    (processSignals i sigs s).lastLaunchTrade = i.nowMinutes := by
  induction sigs generalizing s with
  | nil => exact Or.inl rfl
  | cons sig rest ih =>
    rw [processSignals, List.foldl_cons]
    split_ifs with hv
    · rcases executeLaunchTrade_cases s i.nowMinutes sig i.accountBalance with
        he | he
      · rw [he]
        have := ih s
        rw [processSignals] at this
        exact this
      · have := ih (executeLaunchTrade s i.nowMinutes sig i.accountBalance)
        rw [processSignals] at this
        rcases this with h | h
        · exact Or.inr (h.trans he)
        · exact Or.inr h
    · have := ih s
      rw [processSignals] at this
      exact this

lemma processSignals_total_lastTrade (i : TickInput)
    (sigs : List LaunchSignal) (s : LaunchState)
    (h : (processSignals i sigs s).totalLaunchTrades ≠ s.totalLaunchTrades) :
    (processSignals i sigs s).lastLaunchTrade = i.nowMinutes := by
  induction sigs generalizing s with
  | nil => exact absurd rfl h
  | cons sig rest ih =>
    rw [processSignals, List.foldl_cons] at h ⊢
    split_ifs at h ⊢ with hv
    · rcases executeLaunchTrade_cases s i.nowMinutes sig i.accountBalance with
        he | he
      · rw [he] at h ⊢
        have := ih s (by rw [processSignals]; exact h)
        rw [processSignals] at this
        exact this
      · have := processSignals_lastTrade_or i rest
          (executeLaunchTrade s i.nowMinutes sig i.accountBalance)
        rw [processSignals] at this
        rcases this with h2 | h2
        · exact h2.trans he
        · exact h2
    · have := ih s (by rw [processSignals]; exact h)
      rw [processSignals] at this
      exact this

lemma checkLaunchOpportunities_fields (s : LaunchState) (i : TickInput) :
    (checkLaunchOpportunities s i).sessionActive = s.sessionActive ∧
    (checkLaunchOpportunities s i).launchHigh = s.launchHigh ∧
    (checkLaunchOpportunities s i).launchLow = s.launchLow ∧
    (checkLaunchOpportunities s i).rangeConfirmed = s.rangeConfirmed := by
  unfold checkLaunchOpportunities
  split_ifs
  · exact ⟨rfl, rfl, rfl, rfl⟩
  · exact ⟨rfl, rfl, rfl, rfl⟩
  · exact processSignals_fields _ _ _

lemma checkLaunchOpportunities_of_cooldown (s : LaunchState) (i : TickInput)
    (h : i.nowMinutes - s.lastLaunchTrade < launchCooldownMinutes) :
    checkLaunchOpportunities s i = s := by
  unfold checkLaunchOpportunities
  by_cases g1 : ¬ s.rangeConfirmed ∨ ¬ decimalTruthy s.launchHigh ∨
      ¬ decimalTruthy s.launchLow
  · rw [if_pos g1]
  · rw [if_neg g1, if_pos h]

lemma checkLaunchOpportunities_emit_lastTrade (s : LaunchState)
    (i : TickInput)
    (h : (checkLaunchOpportunities s i).totalLaunchTrades ≠
      s.totalLaunchTrades) :
    (checkLaunchOpportunities s i).lastLaunchTrade = i.nowMinutes := by
  unfold checkLaunchOpportunities at h ⊢
  by_cases g1 : ¬ s.rangeConfirmed ∨ ¬ decimalTruthy s.launchHigh ∨
      ¬ decimalTruthy s.launchLow
  · rw [if_pos g1] at h
    exact absurd rfl h
  · rw [if_neg g1] at h ⊢
    by_cases g2 : i.nowMinutes - s.lastLaunchTrade < launchCooldownMinutes
    · rw [if_pos g2] at h
      exact absurd rfl h
    · rw [if_neg g2] at h ⊢
      exact processSignals_total_lastTrade _ _ _ h

lemma executeLaunchStrategy_out_of_window (s : LaunchState) (i : TickInput)
    (hw : ¬ (launchTimeStartMin ≤ i.timeOfDayMinutes ∧
      i.timeOfDayMinutes ≤ launchTimeEndMin)) :
    executeLaunchStrategy s i =
      checkLaunchOpportunities
        ⟨false, s.launchHigh, s.launchLow, s.rangeConfirmed,
          s.lastLaunchTrade, s.totalLaunchTrades⟩ i := by
  unfold executeLaunchStrategy
  rw [decide_eq_false hw]
  simp

lemma executeLaunchStrategy_inactive_cooldown (s : LaunchState)
    (i : TickInput)
    (hw : ¬ (launchTimeStartMin ≤ i.timeOfDayMinutes ∧
      i.timeOfDayMinutes ≤ launchTimeEndMin))
    (hsa : s.sessionActive = false)
    (hcd : i.nowMinutes - s.lastLaunchTrade < launchCooldownMinutes) :
    executeLaunchStrategy s i = s := by
  obtain ⟨sa, hh, ll, rc, lt, tt⟩ := s
  simp only at hsa
  subst hsa
  rw [executeLaunchStrategy_out_of_window _ _ hw]
  exact checkLaunchOpportunities_of_cooldown _ _ hcd

/-- C9: with two out-of-window ticks closer together than the cooldown, an
emission at the first tick (which stamps `last_launch_trade` with the tick
time) makes the second tick a no-op, so exactly one signal is emitted in
total — regardless of what rejection pattern the second tick presents. -/
theorem launch_cooldown_single_emission (s : LaunchState) (i1 i2 : TickInput)
    (hw1 : ¬ (launchTimeStartMin ≤ i1.timeOfDayMinutes ∧
      i1.timeOfDayMinutes ≤ launchTimeEndMin))
    (hw2 : ¬ (launchTimeStartMin ≤ i2.timeOfDayMinutes ∧
      i2.timeOfDayMinutes ≤ launchTimeEndMin))
    (hemit : (executeLaunchStrategy s i1).totalLaunchTrades =
      s.totalLaunchTrades + 1)
    (hclose : i2.nowMinutes - i1.nowMinutes < launchCooldownMinutes) :
    executeLaunchStrategy (executeLaunchStrategy s i1) i2 =
      executeLaunchStrategy s i1 ∧
    (executeLaunchStrategy (executeLaunchStrategy s i1) i2).totalLaunchTrades =
      s.totalLaunchTrades + 1 := by
  rw [executeLaunchStrategy_out_of_window s i1 hw1] at hemit ⊢
  set s1 : LaunchState := ⟨false, s.launchHigh, s.launchLow, s.rangeConfirmed,
    s.lastLaunchTrade, s.totalLaunchTrades⟩ with hs1
  have hne : (checkLaunchOpportunities s1 i1).totalLaunchTrades ≠
      s1.totalLaunchTrades := by
    rw [hemit]
    simp [hs1]
  have hlast : (checkLaunchOpportunities s1 i1).lastLaunchTrade =
      i1.nowMinutes := checkLaunchOpportunities_emit_lastTrade s1 i1 hne
  have hsa : (checkLaunchOpportunities s1 i1).sessionActive = false :=
    (checkLaunchOpportunities_fields s1 i1).1
  have hfix : executeLaunchStrategy (checkLaunchOpportunities s1 i1) i2 =
      checkLaunchOpportunities s1 i1 := by
    apply executeLaunchStrategy_inactive_cooldown _ _ hw2 hsa
    rw [hlast]
    exact hclose
  exact ⟨hfix, by rw [hfix, hemit]⟩

/-- Concrete instance of `launch_cooldown_single_emission`: a confirmed
session range 99-100, a bearish needle at 09:00 with prices
..., 100.3, 99.8, 99.6 (wick/body 2.5, confidence 0.9, position size
0.4016 > 0), and a second identical pattern 20 minutes later: only the first
tick trades. -/
theorem launch_cooldown_single_emission_witness :
    (executeLaunchStrategy
      ⟨false, some 100, some 99, true, 0, 0⟩
      ⟨540, 100, 996/10, [99, 99, 997/10, 1003/10, 998/10, 996/10], -1, 2,
        1000⟩).totalLaunchTrades = 0 + 1 ∧
    (executeLaunchStrategy (executeLaunchStrategy
      ⟨false, some 100, some 99, true, 0, 0⟩
      ⟨540, 100, 996/10, [99, 99, 997/10, 1003/10, 998/10, 996/10], -1, 2,
        1000⟩)
      ⟨600, 120, 996/10, [99, 99, 997/10, 1003/10, 998/10, 996/10], -1, 2,
        1000⟩).totalLaunchTrades = 0 + 1 := by
  have hemit : (executeLaunchStrategy
      ⟨false, some 100, some 99, true, 0, 0⟩
      ⟨540, 100, 996/10, [99, 99, 997/10, 1003/10, 998/10, 996/10], -1, 2,
        1000⟩).totalLaunchTrades = 0 + 1 := by
    with_unfolding_all decide
  refine ⟨hemit, ?_⟩
  exact (launch_cooldown_single_emission
    ⟨false, some 100, some 99, true, 0, 0⟩
    ⟨540, 100, 996/10, [99, 99, 997/10, 1003/10, 998/10, 996/10], -1, 2, 1000⟩
    ⟨600, 120, 996/10, [99, 99, 997/10, 1003/10, 998/10, 996/10], -1, 2, 1000⟩
    (by norm_num [launchTimeStartMin, launchTimeEndMin])
    (by norm_num [launchTimeStartMin, launchTimeEndMin])
    hemit
    (by norm_num [launchCooldownMinutes])).2

/-- C2 counterexample: a first-day session confirms a range with extrema
100-102; on the next day's window entry at price 90 the session high stays at
102 instead of restarting from the current price, and `range_confirmed`
stays true instead of resetting for the new session. -/
theorem session_reset_counterexample :
    (executeLaunchStrategy (executeLaunchStrategy (executeLaunchStrategy
        (executeLaunchStrategy ⟨false, none, none, false, -60, 0⟩
          ⟨120, 0, 100, [], 0, 0, 0⟩)
        ⟨130, 10, 102, [], 0, 0, 0⟩)
        ⟨540, 420, 101, [], 0, 0, 0⟩)
        ⟨120, 1560, 90, [], 0, 0, 0⟩).launchHigh = some 102 ∧
    ¬ (executeLaunchStrategy (executeLaunchStrategy (executeLaunchStrategy
        (executeLaunchStrategy ⟨false, none, none, false, -60, 0⟩
          ⟨120, 0, 100, [], 0, 0, 0⟩)
        ⟨130, 10, 102, [], 0, 0, 0⟩)
        ⟨540, 420, 101, [], 0, 0, 0⟩)
        ⟨120, 1560, 90, [], 0, 0, 0⟩).launchHigh = some 90 ∧
    (executeLaunchStrategy (executeLaunchStrategy (executeLaunchStrategy
        (executeLaunchStrategy ⟨false, none, none, false, -60, 0⟩
          ⟨120, 0, 100, [], 0, 0, 0⟩)
        ⟨130, 10, 102, [], 0, 0, 0⟩)
        ⟨540, 420, 101, [], 0, 0, 0⟩)
        ⟨120, 1560, 90, [], 0, 0, 0⟩).rangeConfirmed = true := by
  refine ⟨?_, ?_, ?_⟩ <;> with_unfolding_all decide

/-- C2 amended: session extrema are never reset; on every tick (inside or
outside the window) a known high can only rise and a known low can only
fall, and once `range_confirmed` is set it stays set — the previous day's
extrema and confirmation carry over into the next day's session. -/
theorem session_extrema_carry_over (s : LaunchState) (i : TickInput) :
    (s.rangeConfirmed = true →
      (executeLaunchStrategy s i).rangeConfirmed = true) ∧
    (∀ h : ℚ, s.launchHigh = some h →
      ∃ h2, (executeLaunchStrategy s i).launchHigh = some h2 ∧ h ≤ h2) ∧
    (∀ l : ℚ, s.launchLow = some l →
      ∃ l2, (executeLaunchStrategy s i).launchLow = some l2 ∧ l2 ≤ l) := by
  simp only [executeLaunchStrategy]
  split_ifs with ha
  · -- in-window tick: `monitor_launch_levels`
    simp only [monitorLaunchLevels]
    refine ⟨?_, ?_, ?_⟩
    · intro hc
      split_ifs <;> simp [hc]
    · intro h hh
      simp only [hh]
      by_cases hgt : i.currentPrice > h
      · exact ⟨i.currentPrice, by rw [if_pos hgt], le_of_lt hgt⟩
      · exact ⟨h, by rw [if_neg hgt], le_rfl⟩
    · intro l hl
      simp only [hl]
      by_cases hlt : i.currentPrice < l
      · exact ⟨i.currentPrice, by rw [if_pos hlt], le_of_lt hlt⟩
      · exact ⟨l, by rw [if_neg hlt], le_rfl⟩
  · -- out-of-window tick: `check_launch_opportunities` touches neither the
    -- extrema nor the confirmation flag
    obtain ⟨h1, h2, h3, h4⟩ := checkLaunchOpportunities_fields
      ⟨decide (launchTimeStartMin ≤ i.timeOfDayMinutes ∧
          i.timeOfDayMinutes ≤ launchTimeEndMin), s.launchHigh, s.launchLow,
        s.rangeConfirmed, s.lastLaunchTrade, s.totalLaunchTrades⟩ i
    refine ⟨fun hc => ?_, fun h hh => ⟨h, ?_, le_rfl⟩, fun l hl => ⟨l, ?_, le_rfl⟩⟩
    · rw [h4]; exact hc
    · rw [h2]; exact hh
    · rw [h3]; exact hl

/-- Concrete instance of `session_extrema_carry_over`: a day-two in-window
tick at price 90 keeps a previous high of 102. -/
theorem session_extrema_carry_over_witness :
    (⟨true, some 102, some 100, true, -60, 0⟩ : LaunchState).launchHigh =
      some 102 ∧
    ∃ h2, (executeLaunchStrategy ⟨true, some 102, some 100, true, -60, 0⟩
      ⟨120, 1560, 90, [], 0, 0, 0⟩).launchHigh = some h2 ∧ (102:ℚ) ≤ h2 :=
  ⟨rfl, (session_extrema_carry_over ⟨true, some 102, some 100, true, -60, 0⟩
    ⟨120, 1560, 90, [], 0, 0, 0⟩).2.1 102 rfl⟩

/-! ### Market profile (`calculate_market_profile_levels`) -/

/-- One fold step of Python's `max(items, key=lambda x: x[1])`: the current
champion is replaced only on a strictly larger volume, so the first maximal
item in iteration order wins. -/
def tpoStep (a b : ℚ × ℚ) : ℚ × ℚ := if b.2 > a.2 then b else a

/-- Python's `max(items, key=lambda x: x[1])` over `e :: l`. -/
def pocOf (e : ℚ × ℚ) (l : List (ℚ × ℚ)) : ℚ × ℚ := l.foldl tpoStep e

/-- Python's `sorted(items, key=lambda x: x[1], reverse=True)`: a stable sort
descending by volume (ties keep iteration order). -/
def sortedByVol (l : List (ℚ × ℚ)) : List (ℚ × ℚ) :=
  List.insertionSort (fun a b => b.2 ≤ a.2) l

/-- The value-area accumulation loop (source lines 789-797): walk the levels
in descending-volume order, always appending the current level, and stop as
soon as the accumulated volume reaches the target. -/
def takeVA (target : ℚ) : ℚ → List (ℚ × ℚ) → List (ℚ × ℚ)
  | _, [] => []
  | acc, e :: rest =>
    if acc + e.2 ≥ target then [e]
    else e :: takeVA target (acc + e.2) rest

/-- The value-area bucket set of a histogram: levels in descending volume
order until `mp_tpo_percent` per cent of the total volume is covered. -/
def valueAreaEntries (tpoData : List (ℚ × ℚ)) : List (ℚ × ℚ) :=
  takeVA ((tpoData.map Prod.snd).sum * (mpTpoPercent / 100)) 0
    (sortedByVol tpoData)

/-- The outputs of `calculate_market_profile_levels`: `mp_poc_price`,
`mp_vah_price`, `mp_val_price`, `mp_value_area_range`. -/
structure MarketProfileLevels where
  pocPrice : ℚ
  vahPrice : ℚ
  valPrice : ℚ
  valueAreaRange : ℚ
deriving Repr, DecidableEq

/-- Model of `calculate_market_profile_levels` (source lines 771-807): the histogram
`mp_tpo_data` is a price-to-volume association in bucket order; `none` when
it is empty (the `if not self.mp_tpo_data: return` guard) or when no
value-area price exists (the `if value_area_prices:` guard).  POC is the
first maximal-volume bucket, VAH/VAL the maximal/minimal price among the
value-area bucket set. -/
def calculateMarketProfileLevels (tpoData : List (ℚ × ℚ)) :
    Option MarketProfileLevels :=
  match tpoData with
  | [] => none
  | e :: rest =>
    let pocPrice := (pocOf e rest).1
    match valueAreaEntries (e :: rest) with
    | [] => none
    | q :: qs =>
      let vahPrice := listMax q.1 (qs.map Prod.fst)
      let valPrice := listMin q.1 (qs.map Prod.fst)
      some ⟨pocPrice, vahPrice, valPrice, vahPrice - valPrice⟩

lemma tpoStep_fst_snd (a b : ℚ × ℚ) : tpoStep a b = a ∨ tpoStep a b = b := by
  unfold tpoStep
  split_ifs
  · exact Or.inr rfl
  · exact Or.inl rfl

lemma le_tpoStep_left (a b : ℚ × ℚ) : a.2 ≤ (tpoStep a b).2 := by
  unfold tpoStep
  split_ifs with h
  · exact le_of_lt h
  · exact le_rfl

lemma le_tpoStep_right (a b : ℚ × ℚ) : b.2 ≤ (tpoStep a b).2 := by
  unfold tpoStep
  split_ifs with h
  · exact le_rfl
  · exact not_lt.mp h

lemma pocOf_snd_ge_init (e : ℚ × ℚ) (l : List (ℚ × ℚ)) :
    e.2 ≤ (pocOf e l).2 := by
  induction l generalizing e with
  | nil => exact le_rfl
  | cons b t ih =>
    exact le_trans (le_tpoStep_left e b) (ih (tpoStep e b))

lemma pocOf_snd_ge_mem (e x : ℚ × ℚ) (l : List (ℚ × ℚ)) (hx : x ∈ l) :
    x.2 ≤ (pocOf e l).2 := by
  induction l generalizing e with
  | nil => cases hx
  | cons b t ih =>
    rcases List.mem_cons.mp hx with rfl | hx'
    · exact le_trans (le_tpoStep_right e x) (pocOf_snd_ge_init (tpoStep e x) t)
    · exact ih (tpoStep e b) hx'

lemma pocOf_eq_of_forall_le (e : ℚ × ℚ) (l : List (ℚ × ℚ))
    (h : ∀ x ∈ l, ¬ e.2 < x.2) : pocOf e l = e := by
  induction l with
  | nil => rfl
  | cons b t ih =>
    have hb : tpoStep e b = e := if_neg (h b (List.mem_cons_self b t))
    show pocOf (tpoStep e b) t = e
    rw [hb]
    exact ih (fun x hx => h x (List.mem_cons_of_mem b hx))

lemma pocOf_mem (e : ℚ × ℚ) (l : List (ℚ × ℚ)) :
    pocOf e l = e ∨ pocOf e l ∈ l := by
  induction l generalizing e with
  | nil => exact Or.inl rfl
  | cons b t ih =>
    have hcons : pocOf e (b :: t) = pocOf (tpoStep e b) t := rfl
    rw [hcons]
    rcases ih (tpoStep e b) with h | h
    · rcases tpoStep_fst_snd e b with hs | hs
      · exact Or.inl (h.trans hs)
      · rw [h, hs]
        exact Or.inr (List.mem_cons_self b t)
    · exact Or.inr (List.mem_cons_of_mem b h)

lemma pocOf_congr_seed (l : List (ℚ × ℚ)) (a b : ℚ × ℚ)
    (ha : a.2 < (pocOf a l).2) (hb : b.2 < (pocOf b l).2) :
    pocOf a l = pocOf b l := by
  induction l generalizing a b with
  | nil => exact absurd ha (lt_irrefl a.2)
  | cons z t ih =>
    have hstepa : pocOf a (z :: t) = pocOf (tpoStep a z) t := rfl
    have hstepb : pocOf b (z :: t) = pocOf (tpoStep b z) t := rfl
    rw [hstepa] at ha ⊢
    rw [hstepb] at hb ⊢
    by_cases hza : z.2 > a.2 <;> by_cases hzb : z.2 > b.2
    · rw [show tpoStep a z = z from if_pos hza,
        show tpoStep b z = z from if_pos hzb]
    · rw [show tpoStep a z = z from if_pos hza] at ha ⊢
      rw [show tpoStep b z = b from if_neg hzb] at hb ⊢
      have hmem : pocOf b t ∈ t := by
        rcases pocOf_mem b t with h | h
        · rw [h] at hb; exact absurd hb (lt_irrefl b.2)
        · exact h
      have hz : z.2 < (pocOf z t).2 :=
        lt_of_le_of_lt (not_lt.mp hzb)
          (lt_of_lt_of_le hb (pocOf_snd_ge_mem z (pocOf b t) t hmem))
      exact ih z b hz hb
    · rw [show tpoStep a z = a from if_neg hza] at ha ⊢
      rw [show tpoStep b z = z from if_pos hzb] at hb ⊢
      have hmem : pocOf a t ∈ t := by
        rcases pocOf_mem a t with h | h
        · rw [h] at ha; exact absurd ha (lt_irrefl a.2)
        · exact h
      have hz : z.2 < (pocOf z t).2 :=
        lt_of_le_of_lt (not_lt.mp hza)
          (lt_of_lt_of_le ha (pocOf_snd_ge_mem z (pocOf a t) t hmem))
      exact ih a z ha hz
    · rw [show tpoStep a z = a from if_neg hza] at ha ⊢
      rw [show tpoStep b z = b from if_neg hzb] at hb ⊢
      exact ih a b ha hb

/-- The head of the stable descending sort is exactly Python's
`max(..., key=volume)`: the first bucket attaining the maximal volume. -/
lemma sortedByVol_head (x : ℚ × ℚ) (xs : List (ℚ × ℚ)) :
    (sortedByVol (x :: xs)).head? = some (pocOf x xs) := by
  induction xs generalizing x with
  | nil => rfl
  | cons y ys ih =>
    have hy := ih y
    rcases hs : sortedByVol (y :: ys) with _ | ⟨m, t⟩
    · rw [hs] at hy
      exact absurd hy (by simp)
    · rw [hs] at hy
      simp only [List.head?] at hy
      have hm : m = pocOf y ys := Option.some.inj hy
      subst hm
      have hins : sortedByVol (x :: y :: ys) =
          List.orderedInsert (fun a b => b.2 ≤ a.2) x (pocOf y ys :: t) := by
        rw [sortedByVol, List.insertionSort, ← sortedByVol, hs]
      rw [hins, List.orderedInsert]
      by_cases hxm : (pocOf y ys).2 ≤ x.2
      · rw [if_pos hxm]
        simp only [List.head?, Option.some.injEq]
        have hyx : y.2 ≤ x.2 := le_trans (pocOf_snd_ge_init y ys) hxm
        have hstep : tpoStep x y = x := if_neg (not_lt.mpr hyx)
        show x = pocOf (tpoStep x y) ys
        rw [hstep]
        refine (pocOf_eq_of_forall_le x ys (fun z hz => not_lt.mpr ?_)).symm
        exact le_trans (pocOf_snd_ge_mem y z ys hz) hxm
      · rw [if_neg hxm]
        simp only [List.head?, Option.some.injEq]
        have hxm' : x.2 < (pocOf y ys).2 := not_le.mp hxm
        show pocOf y ys = pocOf (tpoStep x y) ys
        by_cases hyx : y.2 > x.2
        · rw [show tpoStep x y = y from if_pos hyx]
        · rw [show tpoStep x y = x from if_neg hyx]
          have hb : y.2 < (pocOf y ys).2 :=
            lt_of_le_of_lt (not_lt.mp hyx) hxm'
          have hmem : pocOf y ys ∈ ys := by
            rcases pocOf_mem y ys with h | h
            · rw [h] at hb; exact absurd hb (lt_irrefl y.2)
            · exact h
          have ha : x.2 < (pocOf x ys).2 :=
            lt_of_lt_of_le hxm' (pocOf_snd_ge_mem x (pocOf y ys) ys hmem)
          exact (pocOf_congr_seed ys x y ha hb).symm

lemma takeVA_cons_head (target acc : ℚ) (e : ℚ × ℚ) (rest : List (ℚ × ℚ)) :
    ∃ u, takeVA target acc (e :: rest) = e :: u := by
  rw [takeVA]
  split_ifs
  · exact ⟨[], rfl⟩
  · exact ⟨takeVA target (acc + e.2) rest, rfl⟩

lemma takeVA_sum_or (target : ℚ) (l : List (ℚ × ℚ)) :
    ∀ acc : ℚ, target ≤ acc + ((takeVA target acc l).map Prod.snd).sum ∨
      takeVA target acc l = l := by
  induction l with
  | nil => exact fun acc => Or.inr rfl
  | cons e rest ih =>
    intro acc
    rw [takeVA]
    split_ifs with h
    · left
      simp only [List.map_cons, List.map_nil, List.sum_cons, List.sum_nil]
      linarith
    · rcases ih (acc + e.2) with h2 | h2
      · left
        simp only [List.map_cons, List.sum_cons]
        linarith
      · right
        rw [h2]

lemma le_listMax_self (p : ℚ) (ps : List ℚ) : p ≤ listMax p ps := by
  induction ps generalizing p with
  | nil => exact le_rfl
  | cons q qs ih =>
    exact le_trans (le_max_left p q) (ih (max p q))

lemma listMin_le_self (p : ℚ) (ps : List ℚ) : listMin p ps ≤ p := by
  induction ps generalizing p with
  | nil => exact le_rfl
  | cons q qs ih =>
    exact le_trans (ih (min p q)) (min_le_left p q)

/-- C5: for every profile built from a nonnegative-volume histogram,
`val ≤ poc ≤ vah`, and the value-area bucket set covers at least
`mp_tpo_percent` per cent of the total volume. -/
theorem market_profile_value_area_sound (tpoData : List (ℚ × ℚ))
    (mpl : MarketProfileLevels) (hvol : ∀ e ∈ tpoData, 0 ≤ e.2)
    (h : calculateMarketProfileLevels tpoData = some mpl) :
    mpl.valPrice ≤ mpl.pocPrice ∧ mpl.pocPrice ≤ mpl.vahPrice ∧
    mpTpoPercent / 100 * (tpoData.map Prod.snd).sum ≤
      ((valueAreaEntries tpoData).map Prod.snd).sum := by
  match tpoData with
  | [] => exact absurd h (by rw [calculateMarketProfileLevels]; simp)
  | e :: rest =>
    -- the sorted list starts with the POC entry
    have hhead := sortedByVol_head e rest
    rcases hs : sortedByVol (e :: rest) with _ | ⟨m, t⟩
    · rw [hs] at hhead
      exact absurd hhead (by simp)
    · rw [hs] at hhead
      simp only [List.head?] at hhead
      have hm : m = pocOf e rest := Option.some.inj hhead
      subst hm
      -- the value area starts with the POC entry as well
      obtain ⟨u, hu⟩ := takeVA_cons_head
        (((e :: rest).map Prod.snd).sum * (mpTpoPercent / 100)) 0
        (pocOf e rest) t
      have hva : valueAreaEntries (e :: rest) = pocOf e rest :: u := by
        rw [valueAreaEntries, hs, hu]
      -- extract the levels from the match in the source function
      rw [calculateMarketProfileLevels] at h
      simp only [hva] at h
      rw [Option.some.injEq] at h
      subst h
      refine ⟨?_, ?_, ?_⟩
      · exact listMin_le_self (pocOf e rest).1 (u.map Prod.fst)
      · exact le_listMax_self (pocOf e rest).1 (u.map Prod.fst)
      · have hsum_or := takeVA_sum_or
          (((e :: rest).map Prod.snd).sum * (mpTpoPercent / 100))
          (sortedByVol (e :: rest)) 0
        rcases hsum_or with h2 | h2
        · rw [valueAreaEntries]
          have := h2
          rw [hs] at this ⊢
          linarith
        · have hperm : List.Perm (sortedByVol (e :: rest)) (e :: rest) :=
            List.perm_insertionSort _ _
          have hsum : ((sortedByVol (e :: rest)).map Prod.snd).sum =
              ((e :: rest).map Prod.snd).sum :=
            (hperm.map Prod.snd).sum_eq
          have hnn : 0 ≤ ((e :: rest).map Prod.snd).sum := by
            apply List.sum_nonneg
            intro x hx
            obtain ⟨z, hz, rfl⟩ := List.mem_map.mp hx
            exact hvol z hz
          rw [valueAreaEntries, h2, hsum]
          rw [mpTpoPercent] at *
          linarith


/-- Concrete instance of `market_profile_value_area_sound`: the histogram
10 ↦ 1, 12 ↦ 3, 11 ↦ 2 gives POC 12, value area {12, 11} with volume 5 ≥
70 % of 6, VAH 12 and VAL 11. -/
theorem market_profile_value_area_sound_witness :
    (∀ e ∈ ([(10, 1), (12, 3), (11, 2)] : List (ℚ × ℚ)), 0 ≤ e.2) ∧
    ∃ mpl : MarketProfileLevels,
      calculateMarketProfileLevels [(10, 1), (12, 3), (11, 2)] = some mpl ∧
      (mpl.valPrice ≤ mpl.pocPrice ∧ mpl.pocPrice ≤ mpl.vahPrice ∧
        mpTpoPercent / 100 *
            (([(10, 1), (12, 3), (11, 2)] : List (ℚ × ℚ)).map Prod.snd).sum ≤
          ((valueAreaEntries [(10, 1), (12, 3), (11, 2)]).map Prod.snd).sum) := by
  have hvol : ∀ e ∈ ([(10, 1), (12, 3), (11, 2)] : List (ℚ × ℚ)), 0 ≤ e.2 := by
    intro e he
    fin_cases he <;> norm_num
  have hev : calculateMarketProfileLevels [(10, 1), (12, 3), (11, 2)] =
      some ⟨12, 12, 11, 1⟩ := by
    with_unfolding_all decide
  exact ⟨hvol, ⟨12, 12, 11, 1⟩, hev,
    market_profile_value_area_sound [(10, 1), (12, 3), (11, 2)]
      ⟨12, 12, 11, 1⟩ hvol hev⟩

end UltimateHybrid
